import Mathlib

/-!
Shallow embedding of `src/zeroshot.py` (Streambench zero-shot baseline):
the classification response parser `ClassificationAgent.extract_label`,
the SQL response parser `SQLGenerationAgent.parse_sql`, and the CLI
benchmark dispatch of the `__main__` block.

Modelling conventions:
* Python dict `label2desc` becomes an association list `List (PyVal × String)`
  (insertion order preserved, as for Python dicts).
* Python values usable as dict keys are modelled by `PyVal` (ints and
  strings), with Python equality: `1 == "1"` is `False` in Python, which is
  exactly `DecidableEq` on the inductive.
* `random.choice(xs)` reads a hidden process-wide RNG state; it is modelled
  by an explicit extra argument `rng : Nat` selecting `xs[rng % len(xs)]`,
  and returns `none` on an empty list (Python raises `IndexError` there).
  Fallible behaviour is surfaced as `Option`.
* `re.findall(r"(\d+)\.", s)` and `re.search(r"```sql([\s\S]*?)```", s)`
  are embedded as executable scanners over `List Char` with the exact
  left-to-right, leftmost-match semantics of the Python `re` module.
-/

namespace Zeroshot

/-- A Python value usable as a `label2desc` key: an int or a str.
Equality of the inductive coincides with Python `==` on these values
(`1 == "1"` is `False` in Python). -/
inductive PyVal where
  | intV : Int → PyVal
  | strV : String → PyVal
deriving DecidableEq, Repr

/-- `int(s)` on a string of decimal digits (the only shape the regex
`(\d+)\.` can capture): fold the digits left to right. -/
def digitsToNat (s : String) : Nat :=
  s.data.foldl (fun acc c => 10 * acc + (c.toNat - 48)) 0

/-- Decimal digit character for `n < 10`. -/
def digitChar (n : Nat) : Char :=
  Char.ofNat (48 + n)

/-- Fuel-driven accumulator loop producing the decimal digits of `n`
(most significant first), prepended to `acc`. -/
def natReprAux : Nat → Nat → List Char → List Char
  | 0, _, acc => acc
  | fuel + 1, n, acc =>
    if n < 10 then digitChar n :: acc
    else natReprAux fuel (n / 10) (digitChar (n % 10) :: acc)

/-- Canonical decimal representation of a natural number, as Python
`str(n)` renders a nonnegative int. -/
def natRepr (n : Nat) : String :=
  String.mk (natReprAux (n + 1) n [])

/-- Python `str()` applied to a `PyVal`. -/
def pyStr : PyVal → String
  | PyVal.intV i => if i < 0 then String.append ("-") (natRepr i.natAbs) else natRepr i.toNat
  | PyVal.strV s => s

/-- `random.choice(xs)` with the hidden RNG state made explicit: picks the
element at index `rng % xs.length`; `none` models the `IndexError` Python
raises on an empty sequence. -/
def randomChoice (xs : List PyVal) (rng : Nat) : Option PyVal :=
  xs.get? (rng % xs.length)

/-- One step of `re.findall(r"(\d+)\.", ·)`: at a position starting with a
digit, the greedy `\d+` takes the maximal digit run; the match succeeds
iff the very next character is `'.'` (a shorter run is followed by a digit,
so backtracking cannot help). On success scanning resumes after the `'.'`;
on failure at the next character. `fuel` bounds recursion depth; it only
needs to dominate the list length. -/
def findNumbersAux : Nat → List Char → List String
  | 0, _ => []
  | _ + 1, [] => []
  | fuel + 1, c :: cs =>
    if c.isDigit then
      let run := List.takeWhile Char.isDigit (c :: cs)
      match List.dropWhile Char.isDigit (c :: cs) with
      | '.' :: rest => String.mk run :: findNumbersAux fuel rest
      | _ => findNumbersAux fuel cs
    else
      findNumbersAux fuel cs

/-- `re.findall(pattern=r"(\d+)\.", string=s)`: every digit run immediately
followed by a period, in left-to-right order of appearance. -/
def findNumbers (s : String) : List String :=
  findNumbersAux s.data.length s.data

/-- `ClassificationAgent.extract_label(pred_text, label2desc)` from
`src/zeroshot.py` lines 122-139.  `numbers = re.findall(r"(\d+)\.", pred_text)`;
if exactly one number: return it when `int(number) in label2desc`, else
`random.choice(list(label2desc.keys()))`; if more than one: return the
first; if none: `random.choice(...)`; finally `str(prediction)`. -/
def extract_label (pred_text : String) (label2desc : List (PyVal × String))
    (rng : Nat) : Option String :=
  match findNumbers pred_text with
  | [number] =>
    if (label2desc.map Prod.fst).contains (PyVal.intV (digitsToNat number)) then
      some number
    else
      Option.map pyStr (randomChoice (label2desc.map Prod.fst) rng)
  | [] => Option.map pyStr (randomChoice (label2desc.map Prod.fst) rng)
  | number :: _ :: _ => some number

/-- `isPre p l` holds iff `p` is a prefix of `l` (character-wise). -/
def isPre : List Char → List Char → Bool
  | [], _ => true
  | _ :: _, [] => false
  | p :: ps, c :: cs => p == c && isPre ps cs

/-- Split `l` at the first occurrence of the contiguous sublist `pat`:
`some (before, after)` with `l = before ++ pat ++ after` and no earlier
occurrence, `none` when `pat` does not occur.  This is the leftmost-match
search of `re.search`. -/
def splitAtSub (pat : List Char) : List Char → Option (List Char × List Char)
  | [] => if pat.isEmpty then some ([], []) else none
  | c :: cs =>
    if isPre pat (c :: cs) then some ([], List.drop pat.length (c :: cs))
    else
      match splitAtSub pat cs with
      | some (b, a) => some (c :: b, a)
      | none => none

/-- Python `str.isspace` characters handled by `str.strip()` in the ASCII
range: space, tab, newline, carriage return, vertical tab, form feed. -/
def isPySpace (c : Char) : Bool :=
  c == ' ' || c == '\t' || c == '\n' || c == '\r' ||
    c == Char.ofNat 11 || c == Char.ofNat 12

/-- Python `str.strip()`: drop leading and trailing whitespace. -/
def pyStrip (s : String) : String :=
  String.mk
    (List.reverse (List.dropWhile isPySpace
      (List.reverse (List.dropWhile isPySpace s.data))))

/-- The opening fence of the pattern `r"```sql([\s\S]*?)```"`. -/
def sqlOpenFence : List Char := String.data ("```sql")

/-- The closing fence of the pattern `r"```sql([\s\S]*?)```"`. -/
def closeFence : List Char := String.data ("```")

/-- `SQLGenerationAgent.parse_sql(pred_text)` from `src/zeroshot.py`
lines 186-200: `re.search(r"```sql([\s\S]*?)```", pred_text)`; on a match
return the captured group stripped of surrounding whitespace, otherwise
return `pred_text` unchanged.  The lazy capture takes the first closing
fence after the first opening fence; when the first opening fence has no
closing fence anywhere after it, later start positions cannot match either
(any later occurrence of the opening fence would itself provide a closing
fence for the first), so the search fails — hence the two nested
first-occurrence splits below are exactly the `re.search` semantics. -/
def parse_sql (pred_text : String) : String :=
  match splitAtSub sqlOpenFence pred_text.data with
  | some (_, rest) =>
    match splitAtSub closeFence rest with
    | some (content, _) => pyStrip (String.mk content)
    | none => pred_text
  | none => pred_text

/-- The two agent classes the `__main__` block can select. -/
inductive AgentKind where
  | classificationAgent
  | sqlGenerationAgent
deriving DecidableEq, Repr

/-- Python `s.startswith(p)`. -/
def startsWithStr (s p : String) : Bool := isPre p.data s.data

/-- The benchmark dispatch of the `__main__` block, `src/zeroshot.py`
lines 216-223: a name starting with `"classification"` selects 32 max
tokens and `ClassificationAgent`; otherwise a name starting with
`"sql_generation"` selects 512 and `SQLGenerationAgent`; otherwise
`ValueError` is raised, modelled as `none`. -/
def dispatch (bench_name : String) : Option (Nat × AgentKind) :=
  if startsWithStr bench_name ("classification") then
    some (32, AgentKind.classificationAgent)
  else if startsWithStr bench_name ("sql_generation") then
    some (512, AgentKind.sqlGenerationAgent)
  else
    none

/-- The keys of a label set rendered as Python `str()` strings. -/
def keyStrings (label2desc : List (PyVal × String)) : List String :=
  label2desc.map (fun kv => pyStr kv.fst)

/-- A parser result `r` counts as a member of the LabelSet's key set when it
is the string form of one of the keys, or its integer value is a key (the
spec's ClassificationResult is "a string-encoded integer that must be a key
present in the LabelSet"). -/
def inKeySet (r : String) (label2desc : List (PyVal × String)) : Prop :=
  r ∈ keyStrings label2desc ∨
    (label2desc.map Prod.fst).contains (PyVal.intV (digitsToNat r)) = true

/-! ### Helper lemmas -/

theorem digitChar_toNat {d : Nat} (h : d < 10) : (digitChar d).toNat = 48 + d := by
  interval_cases d <;> decide

theorem natReprAux_append (fuel : Nat) : ∀ (n : Nat) (acc : List Char),
    natReprAux fuel n acc = natReprAux fuel n [] ++ acc := by
  induction fuel with
  | zero => intro n acc; simp [natReprAux]
  | succ fuel ih =>
    intro n acc
    by_cases h : n < 10
    · simp [natReprAux, h]
    · simp only [natReprAux, if_neg h]
      rw [ih (n / 10) (digitChar (n % 10) :: acc), ih (n / 10) [digitChar (n % 10)]]
      simp

theorem foldl_natReprAux (fuel : Nat) : ∀ n : Nat, n < 10 ^ fuel →
    List.foldl (fun acc c => 10 * acc + (c.toNat - 48)) 0 (natReprAux fuel n []) = n := by
  induction fuel with
  | zero =>
    intro n hn
    have h0 : n = 0 := by simpa using hn
    subst h0
    simp [natReprAux]
  | succ fuel ih =>
    intro n hn
    by_cases h : n < 10
    · have hc := digitChar_toNat h
      simp only [natReprAux, if_pos h, List.foldl_cons, List.foldl_nil, hc]
      omega
    · have h10 : (10 : Nat) ^ (fuel + 1) = 10 ^ fuel * 10 := pow_succ 10 fuel
      have hdiv : n / 10 < 10 ^ fuel := by omega
      have hmod : n % 10 < 10 := Nat.mod_lt _ (by norm_num)
      have hc := digitChar_toNat hmod
      simp only [natReprAux, if_neg h]
      rw [natReprAux_append fuel (n / 10) [digitChar (n % 10)], List.foldl_append,
        ih (n / 10) hdiv]
      simp only [List.foldl_cons, List.foldl_nil, hc]
      omega

/-- `int(str(k)) = k` for a natural number `k`: reading back the canonical
decimal representation recovers the number. -/
theorem digitsToNat_natRepr (n : Nat) : digitsToNat (natRepr n) = n := by
  have hn : n < 10 ^ (n + 1) := by
    calc n < 2 ^ n := Nat.lt_two_pow n
    _ ≤ 10 ^ n := Nat.pow_le_pow_left (by norm_num) n
    _ ≤ 10 ^ (n + 1) := Nat.pow_le_pow_right (by norm_num) (Nat.le_succ n)
  exact foldl_natReprAux (n + 1) n hn

theorem pyStr_intV_ofNat (k : Nat) : pyStr (PyVal.intV (Int.ofNat k)) = natRepr k := by
  have h : ¬ (Int.ofNat k < 0) := not_lt.mpr (Int.ofNat_nonneg k)
  simp [pyStr, h]

theorem randomChoice_mem {xs : List PyVal} (h : xs ≠ []) (rng : Nat) :
    ∃ v, randomChoice xs rng = some v ∧ v ∈ xs := by
  have hlen : 0 < xs.length := List.length_pos.mpr h
  have hlt : rng % xs.length < xs.length := Nat.mod_lt _ hlen
  refine ⟨xs.get ⟨rng % xs.length, hlt⟩, ?_, List.get_mem xs _ _⟩
  simp [randomChoice, List.get?_eq_get hlt]

theorem contains_iff_mem_pv (xs : List PyVal) (v : PyVal) :
    xs.contains v = true ↔ v ∈ xs := by
  induction xs with
  | nil => simp
  | cons x xs ih => simp [List.contains_cons, ih]

theorem contains_intV_of_strV {keys : List PyVal}
    (h : ∀ k ∈ keys, ∃ s, k = PyVal.strV s) (m : Int) :
    keys.contains (PyVal.intV m) = false := by
  rw [Bool.eq_false_iff]
  intro hc
  obtain ⟨s, hs⟩ := h _ ((contains_iff_mem_pv keys (PyVal.intV m)).mp hc)
  exact PyVal.noConfusion hs

theorem isPre_eq {p : List Char} : ∀ {l : List Char},
    isPre p l = true → l = p ++ List.drop p.length l := by
  induction p with
  | nil => intro l _; simp
  | cons a ps ih =>
    intro l hl
    match l with
    | [] => exact absurd hl (by simp [isPre])
    | c :: cs =>
      simp only [isPre, Bool.and_eq_true, beq_iff_eq] at hl
      obtain ⟨rfl, hrest⟩ := hl
      have := ih hrest
      simpa using this

theorem splitAtSub_eq {pat : List Char} : ∀ {l b a : List Char},
    splitAtSub pat l = some (b, a) → l = b ++ pat ++ a := by
  intro l
  induction l with
  | nil =>
    intro b a h
    by_cases hp : pat.isEmpty
    · simp only [splitAtSub, if_pos hp] at h
      obtain ⟨rfl, rfl⟩ := Prod.mk.injEq .. ▸ Option.some.injEq .. ▸ h
      simp [List.isEmpty_iff.mp hp]
    · simp [splitAtSub, hp] at h
  | cons c cs ih =>
    intro b a h
    by_cases hpre : isPre pat (c :: cs) = true
    · simp only [splitAtSub, if_pos hpre] at h
      obtain ⟨rfl, rfl⟩ := Prod.mk.injEq .. ▸ Option.some.injEq .. ▸ h
      simpa using isPre_eq hpre
    · simp only [splitAtSub, if_neg hpre] at h
      match hsplit : splitAtSub pat cs with
      | some (b', a') =>
        rw [hsplit] at h
        simp only [Option.some.injEq, Prod.mk.injEq] at h
        obtain ⟨rfl, rfl⟩ := h
        have := ih hsplit
        simp [this]
      | none => rw [hsplit] at h; exact absurd h (by simp)

/-- Branch reduction: zero matches take the random-fallback branch. -/
theorem extract_label_zero {t : String} {L : List (PyVal × String)} {rng : Nat}
    (hm : findNumbers t = []) :
    extract_label t L rng = Option.map pyStr (randomChoice (L.map Prod.fst) rng) := by
  unfold extract_label
  rw [hm]

/-- Branch reduction: a unique in-set match is returned as-is. -/
theorem extract_label_one_pos {t n : String} {L : List (PyVal × String)} {rng : Nat}
    (hm : findNumbers t = [n])
    (hc : (L.map Prod.fst).contains (PyVal.intV (digitsToNat n)) = true) :
    extract_label t L rng = some n := by
  unfold extract_label
  rw [hm]
  exact if_pos hc

/-- Branch reduction: a unique out-of-set match takes the random-fallback
branch. -/
theorem extract_label_one_neg {t n : String} {L : List (PyVal × String)} {rng : Nat}
    (hm : findNumbers t = [n])
    (hc : ¬ (L.map Prod.fst).contains (PyVal.intV (digitsToNat n)) = true) :
    extract_label t L rng = Option.map pyStr (randomChoice (L.map Prod.fst) rng) := by
  unfold extract_label
  rw [hm]
  exact if_neg hc

/-- Branch reduction: two or more matches return the first one. -/
theorem extract_label_multi {t n m : String} {rest : List String}
    {L : List (PyVal × String)} {rng : Nat}
    (hm : findNumbers t = n :: m :: rest) :
    extract_label t L rng = some n := by
  unfold extract_label
  rw [hm]

/-! ### Claim theorems -/

/-- **C1** (counterexample). The claim that the result of `extract_label` is a
member of the LabelSet's key set on *every* path, including the multi-match
path, is false: on the label set `{1: "flu"}` and the response `"2. and 3."`
the multi-match branch returns `"2"`, which is not a key of the label set in
either the string or the integer sense. -/
theorem C1_counterexample :
    extract_label ("2. and 3.") [(PyVal.intV 1, "flu")] 0 = some ("2") ∧
      ¬ inKeySet ("2") [(PyVal.intV 1, "flu")] := by
  constructor
  · decide
  · intro h
    rcases h with h | h
    · revert h; decide
    · revert h; decide

/-- **C1** (amended). Whenever the raw text contains at most one
`"<digits>."` token, `extract_label` on a non-empty LabelSet always returns
a value that is a member of the LabelSet's key set; the invariant holds on
the zero-match, the in-set single-match and the out-of-set single-match
paths, but not on the multi-match path. -/
theorem C1_amended {t : String} {L : List (PyVal × String)} {rng : Nat}
    (hne : L ≠ []) (hle : (findNumbers t).length ≤ 1) :
    ∃ r, extract_label t L rng = some r ∧ inKeySet r L := by
  have hkeys : L.map Prod.fst ≠ [] := by
    intro hmap
    exact hne (List.map_eq_nil_iff.mp hmap)
  match hm : findNumbers t with
  | [] =>
    obtain ⟨v, hv, hvm⟩ := randomChoice_mem hkeys rng
    refine ⟨pyStr v, ?_, Or.inl ?_⟩
    · rw [extract_label_zero hm, hv]
      rfl
    · rw [List.mem_map] at hvm
      obtain ⟨p, hp, rfl⟩ := hvm
      exact List.mem_map.mpr ⟨p, hp, rfl⟩
  | [n] =>
    by_cases hc : (L.map Prod.fst).contains (PyVal.intV (digitsToNat n)) = true
    · refine ⟨n, ?_, Or.inr hc⟩
      exact extract_label_one_pos hm hc
    · obtain ⟨v, hv, hvm⟩ := randomChoice_mem hkeys rng
      refine ⟨pyStr v, ?_, Or.inl ?_⟩
      · rw [extract_label_one_neg hm hc, hv]
        rfl
      · rw [List.mem_map] at hvm
        obtain ⟨p, hp, rfl⟩ := hvm
        exact List.mem_map.mpr ⟨p, hp, rfl⟩
  | n :: m :: rest =>
    rw [hm] at hle
    simp at hle

/-- Witness for **C1** (amended) at the spec's own end-to-end example:
LabelSet `{1: "flu", 2: "cold"}`, raw response `"2. cold"`. -/
theorem C1_witness :
    ∃ r, extract_label ("2. cold") [(PyVal.intV 1, "flu"), (PyVal.intV 2, "cold")] 0 = some r ∧
      inKeySet r [(PyVal.intV 1, "flu"), (PyVal.intV 2, "cold")] :=
  C1_amended (by decide) (by decide)

/-- **C2**. For every non-empty LabelSet and every text whose only
`"<digits>."` token has a digit run equal to (the decimal form of) an
existing integer key `k`, `extract_label` returns exactly that key as a
string. -/
theorem C2_single_match_in_set {t : String} {L : List (PyVal × String)} {rng : Nat} {k : Nat}
    (_hne : L ≠ []) (hm : findNumbers t = [natRepr k])
    (hk : (L.map Prod.fst).contains (PyVal.intV k) = true) :
    extract_label t L rng = some (natRepr k) := by
  refine extract_label_one_pos hm ?_
  rw [digitsToNat_natRepr]
  exact hk

/-- Witness for **C2**: LabelSet `{1: "flu", 2: "cold"}`, raw response
`"2. cold"` yields `"2"`. -/
theorem C2_witness :
    extract_label ("2. cold") [(PyVal.intV 1, "flu"), (PyVal.intV 2, "cold")] 0 = some ("2") :=
  @C2_single_match_in_set ("2. cold") [(PyVal.intV 1, "flu"), (PyVal.intV 2, "cold")] 0 2
    (by decide) (by decide) (by decide)

/-- **C3**. For every LabelSet (validated or not, even empty) and every text
containing more than one `"<digits>."` token, `extract_label` returns the
digit run of the leftmost token, with no membership check. -/
theorem C3_multi_match_first {t n m : String} {rest : List String}
    {L : List (PyVal × String)} {rng : Nat}
    (hm : findNumbers t = n :: m :: rest) :
    extract_label t L rng = some n :=
  extract_label_multi hm

/-- Witness for **C3** at the spec's example `"I think it's either 1. flu or
3. migraine"`: the result is `"1"` even though `3` is not a key. -/
theorem C3_witness :
    extract_label ("I think it's either 1. flu or 3. migraine")
      [(PyVal.intV 1, "flu"), (PyVal.intV 2, "cold")] 0 = some ("1") :=
  @C3_multi_match_first ("I think it's either 1. flu or 3. migraine") ("1") ("3") []
    [(PyVal.intV 1, "flu"), (PyVal.intV 2, "cold")] 0 (by decide)

/-- **C4**. For every non-empty integer-keyed LabelSet and every text with
zero `"<digits>."` tokens, or exactly one such token whose integer value is
not a key, `extract_label` falls back to a choice among the LabelSet's keys:
the result is a member of the key set (as a string) and is never the invalid
token itself. -/
theorem C4_fallback_in_keys {t : String} {L : List (PyVal × String)} {rng : Nat}
    (hne : L ≠ [])
    (hnat : ∀ p ∈ L, ∃ k : Nat, p.fst = PyVal.intV (Int.ofNat k))
    (hcase : findNumbers t = [] ∨
      ∃ n, findNumbers t = [n] ∧
        (L.map Prod.fst).contains (PyVal.intV (digitsToNat n)) = false) :
    ∃ r, extract_label t L rng = some r ∧ r ∈ keyStrings L ∧
      ∀ n, findNumbers t = [n] → r ≠ n := by
  have hkeys : L.map Prod.fst ≠ [] := by
    intro hmap
    exact hne (List.map_eq_nil_iff.mp hmap)
  obtain ⟨v, hv, hvm⟩ := randomChoice_mem hkeys rng
  have hvk : pyStr v ∈ keyStrings L := by
    rw [List.mem_map] at hvm
    obtain ⟨p, hp, rfl⟩ := hvm
    exact List.mem_map.mpr ⟨p, hp, rfl⟩
  obtain ⟨p, hp, hpv⟩ := List.mem_map.mp hvm
  obtain ⟨kv, hkv⟩ := hnat p hp
  have hv2 : v = PyVal.intV (Int.ofNat kv) := hpv ▸ hkv
  rcases hcase with h0 | ⟨n, hn, hcont⟩
  · refine ⟨pyStr v, ?_, hvk, ?_⟩
    · rw [extract_label_zero h0, hv]
      rfl
    · intro n hcontr
      rw [h0] at hcontr
      exact List.noConfusion hcontr
  · refine ⟨pyStr v, ?_, hvk, ?_⟩
    · have hcont' : ¬ (L.map Prod.fst).contains (PyVal.intV (digitsToNat n)) = true := by
        rw [hcont]; exact Bool.false_ne_true
      rw [extract_label_one_neg hn hcont', hv]
      rfl
    · intro n' hn'
      rw [hn] at hn'
      obtain rfl : n = n' := (List.cons.injEq .. ▸ hn').1
      intro heq
      have hvrepr : pyStr v = natRepr kv := by rw [hv2, pyStr_intV_ofNat]
      have hnum : digitsToNat n = kv := by
        rw [← heq, hvrepr, digitsToNat_natRepr]
      have hvmem : PyVal.intV (digitsToNat n) ∈ L.map Prod.fst := by
        rw [hnum]
        exact hv2 ▸ hvm
      rw [← contains_iff_mem_pv] at hvmem
      rw [hvmem] at hcont
      exact Bool.noConfusion hcont

/-- Witness for **C4**: the spec's example of a raw response with no
digit-period pattern on the label set `{1: "flu", 2: "cold"}`. -/
theorem C4_witness :
    ∃ r, extract_label ("the patient has a cold")
        [(PyVal.intV 1, "flu"), (PyVal.intV 2, "cold")] 0 = some r ∧
      r ∈ keyStrings [(PyVal.intV 1, "flu"), (PyVal.intV 2, "cold")] ∧
      ∀ n, findNumbers ("the patient has a cold") = [n] → r ≠ n := by
  refine C4_fallback_in_keys (by decide) ?_ (Or.inl (by decide))
  intro p hp
  rcases List.mem_cons.mp hp with rfl | hp2
  · exact ⟨1, rfl⟩
  · rcases List.mem_cons.mp hp2 with rfl | hp3
    · exact ⟨2, rfl⟩
    · exact absurd hp3 (by simp)

/-- **C5**. For every text containing a block delimited by an opening fence
tagged `sql` and a closing fence, `parse_sql` returns the content of the
first such block with leading and trailing whitespace stripped; the
decomposition conjunct certifies that the returned content really is the
text standing between the first opening fence and the first closing fence
after it. -/
theorem C5_sql_block {t : String} {pre rest content post : List Char}
    (h1 : splitAtSub sqlOpenFence t.data = some (pre, rest))
    (h2 : splitAtSub closeFence rest = some (content, post)) :
    parse_sql t = pyStrip (String.mk content) ∧
      t.data = pre ++ sqlOpenFence ++ (content ++ (closeFence ++ post)) := by
  constructor
  · simp only [parse_sql, h1, h2]
  · have e1 := splitAtSub_eq h1
    have e2 := splitAtSub_eq h2
    rw [e1, e2]
    simp

/-- Witness for **C5** at the spec's round-trip example: the input
`"prefix ```sql\nSELECT 1;\n``` suffix"` yields exactly `"SELECT 1;"`. -/
theorem C5_witness :
    parse_sql ("prefix ```sql\nSELECT 1;\n``` suffix") = "SELECT 1;" := by
  have h := @C5_sql_block ("prefix ```sql\nSELECT 1;\n``` suffix")
    (String.data ("prefix ")) (String.data ("\nSELECT 1;\n``` suffix"))
    (String.data ("\nSELECT 1;\n")) (String.data (" suffix"))
    (by decide) (by decide)
  rw [h.1]
  decide

/-- **C6**. For every text containing no sql-tagged fenced block — either
no opening fence at all, or an opening fence never followed by a closing
fence — `parse_sql` returns the input verbatim, with no trimming and no
failure. -/
theorem C6_no_fence {t : String}
    (h : splitAtSub sqlOpenFence t.data = none ∨
      ∃ pre rest, splitAtSub sqlOpenFence t.data = some (pre, rest) ∧
        splitAtSub closeFence rest = none) :
    parse_sql t = t := by
  rcases h with h | ⟨pre, rest, h1, h2⟩
  · simp only [parse_sql, h]
  · simp only [parse_sql, h1, h2]

/-- Witness for **C6**: a completion with no fence at all is returned
unchanged. -/
theorem C6_witness :
    parse_sql ("SELECT name FROM users;") = "SELECT name FROM users;" :=
  C6_no_fence (Or.inl (by decide))

/-- **C7** (counterexample). `extract_label` is not deterministic across
runs when parsing fails: on the zero-match input `"no digits"` and label set
`{1: "flu", 2: "cold"}`, two runs at different states of the process-wide
random source return different results. -/
theorem C7_counterexample :
    ¬ (extract_label ("no digits") [(PyVal.intV 1, "flu"), (PyVal.intV 2, "cold")] 0 =
        extract_label ("no digits") [(PyVal.intV 1, "flu"), (PyVal.intV 2, "cold")] 1) := by
  decide

/-- **C7** (amended). `extract_label` is a pure function of the raw text,
the label set and the random-source state, so two runs at the same state
agree; moreover on the paths that do not consult the random source — a
unique in-set match, or multiple matches — two runs agree regardless of the
random-source state.  Only the failure fallbacks (zero matches, or a unique
out-of-set match) depend on the process-wide random source. -/
theorem C7_amended {t : String} {L : List (PyVal × String)} {rng1 rng2 : Nat}
    (h : 1 < (findNumbers t).length ∨
      ∃ n, findNumbers t = [n] ∧
        (L.map Prod.fst).contains (PyVal.intV (digitsToNat n)) = true) :
    extract_label t L rng1 = extract_label t L rng2 := by
  rcases h with h | ⟨n, hn, hc⟩
  · match hm : findNumbers t with
    | [] => rw [hm] at h; simp at h
    | [n] => rw [hm] at h; simp at h
    | n :: m :: rest =>
      rw [extract_label_multi hm, extract_label_multi hm]
  · rw [extract_label_one_pos hn hc, extract_label_one_pos hn hc]

/-- Witness for **C7** (amended) on a multi-match text: the result does not
depend on the random-source state. -/
theorem C7_witness :
    extract_label ("1. flu or 3. migraine") [(PyVal.intV 1, "flu")] 0 =
      extract_label ("1. flu or 3. migraine") [(PyVal.intV 1, "flu")] 5 :=
  C7_amended (Or.inl (by decide))

/-- **C8**. `extract_label` is total on its public interface: for every
non-empty LabelSet, every input text and every random-source state it
produces a string value (`some`), never the exception outcome (`none`). -/
theorem C8_total {t : String} {L : List (PyVal × String)} {rng : Nat}
    (hne : L ≠ []) :
    ∃ r : String, extract_label t L rng = some r := by
  have hkeys : L.map Prod.fst ≠ [] := by
    intro hmap
    exact hne (List.map_eq_nil_iff.mp hmap)
  obtain ⟨v, hv, _⟩ := randomChoice_mem hkeys rng
  match hm : findNumbers t with
  | [] =>
    refine ⟨pyStr v, ?_⟩
    rw [extract_label_zero hm, hv]
    rfl
  | [n] =>
    by_cases hc : (L.map Prod.fst).contains (PyVal.intV (digitsToNat n)) = true
    · exact ⟨n, extract_label_one_pos hm hc⟩
    · refine ⟨pyStr v, ?_⟩
      rw [extract_label_one_neg hm hc, hv]
      rfl
  | n :: m :: rest => exact ⟨n, extract_label_multi hm⟩

/-- Witness for **C8** on a malformed input (a stray period and no digits). -/
theorem C8_witness :
    ∃ r : String, extract_label (". . . unclear . . .") [(PyVal.intV 1, "flu")] 7 = some r :=
  C8_total (by decide)

/-- **C9**. The command-line dispatch selects by benchmark-name prefix: a
name starting with `"classification"` yields a 32-token budget and the
classification agent, otherwise a name starting with `"sql_generation"`
yields a 512-token budget and the SQL agent, and any other name raises the
fatal `ValueError`, modelled as `none`. -/
theorem C9_dispatch (s : String) :
    (startsWithStr s ("classification") = true →
      dispatch s = some (32, AgentKind.classificationAgent)) ∧
    (startsWithStr s ("classification") = false →
      startsWithStr s ("sql_generation") = true →
      dispatch s = some (512, AgentKind.sqlGenerationAgent)) ∧
    (startsWithStr s ("classification") = false →
      startsWithStr s ("sql_generation") = false →
      dispatch s = none) := by
  refine ⟨fun h1 => ?_, fun h1 h2 => ?_, fun h1 h2 => ?_⟩
  · unfold dispatch
    rw [h1]
    rfl
  · unfold dispatch
    rw [h1, h2]
    rfl
  · unfold dispatch
    rw [h1, h2]
    rfl

/-- Witness for **C9** at one benchmark name of each kind. -/
theorem C9_witness :
    dispatch ("classification_public") = some (32, AgentKind.classificationAgent) ∧
    dispatch ("sql_generation_public") = some (512, AgentKind.sqlGenerationAgent) ∧
    dispatch ("summarization_public") = none :=
  ⟨(C9_dispatch ("classification_public")).1 (by decide),
    (C9_dispatch ("sql_generation_public")).2.1 (by decide) (by decide),
    (C9_dispatch ("summarization_public")).2.2 (by decide) (by decide)⟩

/-- **C10**. The single-match membership test compares `int(number)` with
the keys, so on a `label2desc` whose keys are all strings — as the declared
parameter type `dict[str, str]` prescribes — the test never succeeds: for
every text with exactly one `"<digits>."` token the validated-return branch
is unreachable and `extract_label` takes the random-fallback branch. -/
theorem C10_string_keys_fallback {t n : String} {L : List (PyVal × String)} {rng : Nat}
    (hstr : ∀ p ∈ L, ∃ s, p.fst = PyVal.strV s)
    (hm : findNumbers t = [n]) :
    (L.map Prod.fst).contains (PyVal.intV (digitsToNat n)) = false ∧
      extract_label t L rng = Option.map pyStr (randomChoice (L.map Prod.fst) rng) := by
  have hc : (L.map Prod.fst).contains (PyVal.intV (digitsToNat n)) = false := by
    refine contains_intV_of_strV ?_ _
    intro k hk
    rw [List.mem_map] at hk
    obtain ⟨p, hp, rfl⟩ := hk
    exact hstr p hp
  refine ⟨hc, extract_label_one_neg hm ?_⟩
  rw [hc]
  exact Bool.false_ne_true

/-- Witness for **C10** on the one-entry string-keyed label set
`{"1": "flu"}` and the well-formed response `"1. flu"`: even the matching
digit run is rejected by the membership test. -/
theorem C10_witness :
    (([(PyVal.strV ("1"), "flu")]).map Prod.fst).contains
        (PyVal.intV (digitsToNat ("1"))) = false ∧
      extract_label ("1. flu") [(PyVal.strV ("1"), "flu")] 0 =
        Option.map pyStr (randomChoice ([(PyVal.strV ("1"), "flu")].map Prod.fst) 0) := by
  have hstr : ∀ p ∈ [(PyVal.strV ("1"), "flu")], ∃ s, p.fst = PyVal.strV s := by
    intro p hp
    rcases List.mem_cons.mp hp with rfl | hp2
    · exact ⟨"1", rfl⟩
    · exact absurd hp2 (by simp)
  exact C10_string_keys_fallback hstr (by decide)

end Zeroshot
